import Mathlib

/-!
# Verification of `mpp` — `pkg/router/router.go`

A shallow embedding of the router's selection-and-dispatch engine:

* `equal` — the selection-equality check (`router.go:148-155`), embedded in
  `Except Unit` because Go slice indexing `b[i]` panics out of range;
* `writerPass` — the writer branch of `doSelection` (`router.go:96-138`):
  the merge/replace policy for the new `selector.Result`, the rewriter
  installation, and the metrics updates;
* `statusGo` — the `Status()` projection (`router.go:171-180`);
* a retry driver for the forwarding buffer's policy string
  `IsNetworkError() && Attempts() < 2` (`router.go:85`);
* a small-step interleaving semantics of concurrent `doSelection` callers
  (the conch channel plus the `selectionInProgress` RWMutex,
  `router.go:93-146`).

Machine conventions: Go `nil` slices and empty slices are both the empty
list (the code only ever tests `== nil || len == 0`); a Go panic is
`Except.error ()`; `url.URL` is modelled with the only fields this package
reads or writes (`Scheme`, `Host`) plus `Path` standing for the untouched
remainder of the struct.
-/

namespace Mpp

/-- `net/url.URL`, restricted to the fields the router touches. `path`
stands in for every field the rewriter leaves alone. -/
structure URL where
  scheme : String
  host : String
  path : String
deriving DecidableEq, Repr

/-- `locator.PrometheusEndpoint` (the locator package is outside this
component; the router only stores and reports these values opaquely). -/
structure PrometheusEndpoint where
  address : String
deriving DecidableEq, Repr

/-- `selector.Result` as consumed by `doSelection` and `Status`:
`Candidates` (everything discovered) and `Selection` (the admitted
subset of endpoint URLs). -/
structure Result where
  candidates : List PrometheusEndpoint
  selection : List URL
deriving DecidableEq, Repr

/-- A discovery/selection error, opaque to the router (only `err != nil`
is ever tested). -/
structure GoError where
  msg : String
deriving DecidableEq, Repr

/-- The rewrite rule installed at `router.go:120-126`: a closure capturing
`result.Selection`. The strategy's `NextIndex` is looked up at call time,
so it is a parameter of `RewriteRule.apply` below, not part of the capture. -/
structure RewriteRule where
  sel : List URL
deriving DecidableEq, Repr

/-- Strategy metadata (`Name`, `Description`, `ComparisonMetricName`),
read only by `Status`. -/
structure StrategyMeta where
  name : String
  description : String
  comparisonMetricName : String
deriving DecidableEq, Repr

/-- The fields of `Router` that the claims are about: the stored
`selection *selector.Result` (an `Option` since Go starts it `nil`), the
installed `rewriter`, the two metrics (`selectedBackends` gauge and
`selectionEvents` counter), the static configuration read by `Status`,
and `rewriteInstalls`, an event counter instrumenting the assignment
`r.rewriter = func...` at `router.go:120` (the spec's observable
"counter of rewrite rule installations"). -/
structure RouterCore where
  selection : Option Result
  rewriter : Option RewriteRule
  gaugeSelectedBackends : Nat
  counterSelectionEvents : Nat
  rewriteInstalls : Nat
  strategy : StrategyMeta
  affinityOptions : List String
  intervalNs : Nat
deriving DecidableEq, Repr

/-- The loop body of `equal` (`router.go:149-153`): walk `a` (as `rest`),
indexing `b` at the running position `i`. The slice access `b[i]` carries
Go's runtime bounds check: out of range it panics (`Except.error ()`). A
mismatch returns `false` immediately; when the loop ends, return
`len(a) == len(b)` (`a0` is the original `a`). -/
def equalAux (a0 b : List URL) : List URL → Nat → Except Unit Bool
  | [], _ => .ok (a0.length == b.length)
  | v :: rest, i =>
    if h : i < b.length then
      if v == b[i] then equalAux a0 b rest (i + 1) else .ok false
    else
      .error ()

/-- `equal(a, b []*url.URL) bool` (`router.go:148-155`), with Go's
out-of-range panic made explicit. -/
def equal (a b : List URL) : Except Unit Bool :=
  equalAux a b a 0

/-- `contains(a []*url.URL, u *url.URL) bool` (`router.go:157-164`). -/
def contains (a : List URL) (u : URL) : Bool :=
  a.any (fun v => u == v)

/-- `backend(u *url.URL) string` (`router.go:166-168`). -/
def backend (u : URL) : String :=
  u.scheme ++ "://" ++ u.host

/-- The merge/replace policy of `doSelection` (`router.go:104-131`), given
the `result` and `err` produced by `r.selector.Select()` at line 102.
Go's short-circuit `r.selection == nil || !equal(...)` is kept: `equal`
(which can panic) runs only when a previous selection exists. A panic
aborts the pass with no state change (the goroutine dies before any
assignment of the panicking statement runs). -/
def mergePhase (r : RouterCore) (result : Result) (err : Option GoError) :
    Except Unit RouterCore :=
  if result.selection.isEmpty then
    if err.isSome then
      -- log.Errorf…; only adopt the error result when nothing is stored yet
      if r.selection.isNone then
        .ok { r with selection := some result }
      else
        .ok r
    else
      -- log.Warnf…; adopt the explicit "no backends" result
      .ok { r with selection := some result }
  else do
    let install ←
      match r.selection with
      | none => pure true
      | some p => do
        let e ← equal p.selection result.selection
        pure (!e)
    let r1 :=
      if install then
        { r with rewriter := some ⟨result.selection⟩,
                 rewriteInstalls := r.rewriteInstalls + 1 }
      else
        r
    pure { r1 with selection := some result }

/-- One writer pass of `doSelection` (`router.go:96-138`): the merge
policy above followed by the metrics updates of lines 133-134 — the gauge
`selectedBackends` is set to `len(result.Selection)` and the counter
`selectionEvents` is incremented once, whatever branch the merge took. -/
def writerPass (r : RouterCore) (result : Result) (err : Option GoError) :
    Except Unit RouterCore :=
  (mergePhase r result err).map fun mid =>
    { mid with gaugeSelectedBackends := result.selection.length,
               counterSelectionEvents := mid.counterSelectionEvents + 1 }

/-- `Status` (the struct of `router.go:37-44`). `interval` is a duration
in nanoseconds, `affinityOptions` the trimmed `%v` rendering. -/
structure StatusT where
  endpoints : List PrometheusEndpoint
  strategy : String
  strategyDescription : String
  affinityOptions : String
  comparisonMetric : String
  intervalNs : Nat
deriving DecidableEq, Repr

/-- `strings.Trim(fmt.Sprintf("%v", r.affinityOptions), "[]")`
(`router.go:177`): Go renders a slice as `[a b c]` and the trim strips
the brackets, leaving the space-joined elements. -/
def formatAffinityOptions (opts : List String) : String :=
  String.intercalate " " opts

/-- `(r *Router) Status()` (`router.go:171-180`). `r.selection.Candidates`
dereferences the stored result pointer, a nil-pointer panic when no
selection has ever been stored. -/
def statusGo (r : RouterCore) : Except Unit StatusT :=
  match r.selection with
  | none => .error ()
  | some sel =>
    .ok { endpoints := sel.candidates
          strategy := r.strategy.name
          strategyDescription := r.strategy.description
          affinityOptions := formatAffinityOptions r.affinityOptions
          comparisonMetric := r.strategy.comparisonMetricName
          intervalNs := r.intervalNs }

/-- The router state as `NewRouter` builds it at `router.go:57-64`, before
the first `doSelection`: no stored selection, no rewriter, zeroed metrics. -/
def initialCore (strategy : StrategyMeta) (affinityOptions : List String)
    (intervalNs : Nat) : RouterCore :=
  { selection := none
    rewriter := none
    gaugeSelectedBackends := 0
    counterSelectionEvents := 0
    rewriteInstalls := 0
    strategy := strategy
    affinityOptions := affinityOptions
    intervalNs := intervalNs }

/-- The synchronous part of `NewRouter` (`router.go:57-68`): build the
initial state and run one complete `doSelection` writer pass (the
constructor holds the conch it just deposited, so its call takes the
writer path) with whatever the selector returned. -/
def newRouterCore (strategy : StrategyMeta) (affinityOptions : List String)
    (intervalNs : Nat) (result : Result) (err : Option GoError) :
    Except Unit RouterCore :=
  writerPass (initialCore strategy affinityOptions intervalNs) result err

/-- A sequence of later refresh cycles (the timer loop of
`router.go:69-78`), each a writer pass over the selector's next output; a
panicking pass kills the goroutine, so it aborts the whole run. -/
def runRefreshes (r : RouterCore) :
    List (Result × Option GoError) → Except Unit RouterCore
  | [] => .ok r
  | (result, err) :: rest =>
    match writerPass r result err with
    | .error e => .error e
    | .ok r1 => runRefreshes r1 rest

/-- The body of the rewriter closure (`router.go:120-126`): ask the
strategy for the next index into the captured selection, then rewrite the
URL's host and scheme in place; `selection[i]` out of range is a panic. -/
def RewriteRule.apply (rule : RewriteRule) (nextIndex : List URL → Nat)
    (u : URL) : Except Unit URL :=
  let selection := rule.sel
  let i := nextIndex selection
  if h : i < selection.length then
    .ok { u with host := selection[i].host, scheme := selection[i].scheme }
  else
    .error ()

/-! ## Retry policy of the forwarding buffer -/

/-- Outcome of one transport attempt: a successful roundtrip, a
network-level failure, or an application-level (non-network) failure. -/
inductive AttemptOutcome where
  | success
  | networkError
  | appError
deriving DecidableEq, Repr

/-- The retry predicate installed at `router.go:85`, the expression
`IsNetworkError() && Attempts() < 2` evaluated after an attempt fails,
with `attempts` the number of attempts made so far. -/
def shouldRetry (outcome : AttemptOutcome) (attempts : Nat) : Bool :=
  (outcome == .networkError) && attempts < 2

/-- Modelled from the spec: the retry driver of the forwarding buffer
(`vulcand/oxy/buffer`, not part of this repository) — "on a network-level
failure … retry up to a small fixed attempt count (2) against the same
resolved target before surfacing failure to the caller; no retry on
non-network errors". `transport n` is the outcome of the `n`-th attempt
(1-based); after each attempt the predicate of `router.go:85` decides
whether to go again. A successful attempt never retries
(`shouldRetry .success _ = false`). Returns the total attempt count and
the surfaced outcome. -/
def retryLoop (transport : Nat → AttemptOutcome) (attempt : Nat) :
    Nat × AttemptOutcome :=
  let o := transport attempt
  if h : shouldRetry o attempt then
    retryLoop transport (attempt + 1)
  else
    (attempt, o)
termination_by 2 - attempt
decreasing_by
  simp only [shouldRetry, Bool.and_eq_true, decide_eq_true_eq, beq_iff_eq] at h
  omega

/-- One buffered dispatch: start at attempt 1. -/
def dispatchWithRetry (transport : Nat → AttemptOutcome) :
    Nat × AttemptOutcome :=
  retryLoop transport 1

/-! ## Interleaving semantics of concurrent `doSelection`

Each thread runs `doSelection` (`router.go:93-146`), split into atomic
steps at its interaction points with the shared state: the capacity-1
channel `theConch` (a boolean: `true` when the token is in the channel)
and the `selectionInProgress` RWMutex (represented by the program
counters: a thread between a successful `Lock` and its deferred `Unlock`
holds the write lock; a thread between `RLock` and `RUnlock` holds a read
lock). `Select()` and the state update are folded into the
`selecting`/`selected` transition. One simplification: Go's RWMutex gives
a *pending* writer priority over new readers; here `rlock` only requires
that no writer currently holds the lock. That only adds interleavings
(readers overtaking a queued writer), so the safety invariants below are
proved over a superset of the real traces, and the concrete trace used as
a counterexample never has a pending writer, so it is a real Go trace. -/

/-- Program counter of one `doSelection` caller. -/
inductive PC where
  | start      -- about to run the select statement on theConch (line 94)
  | acquired   -- received the token (line 95), about to Lock (line 96)
  | locked     -- holds the write lock, about to call Select (line 102)
  | selecting  -- inside r.selector.Select()
  | selected   -- Select returned; merge + metrics done, about to send the token (line 138)
  | unlocking  -- token sent, about to run the deferred Unlock (line 97)
  | waiting    -- took the default branch (line 139), about to RLock (line 143)
  | reading    -- holds a read lock, about to run the deferred RUnlock (line 144)
  | done       -- returned
deriving DecidableEq, Repr

/-- One `doSelection` caller: its program counter, whether it ever
received the conch token, and how many `Select()` calls it has completed. -/
structure Thread where
  pc : PC
  tookToken : Bool
  selectsDone : Nat
deriving DecidableEq, Repr

/-- The shared configuration: the callers and the channel content. -/
structure Config where
  threads : List Thread
  conch : Bool
deriving DecidableEq, Repr

/-- A thread holds the write lock in these states (between a successful
`Lock` and the deferred `Unlock`). -/
def inWriteRegion : PC → Bool
  | .locked | .selecting | .selected | .unlocking => true
  | _ => false

/-- A thread holds the conch token in these states (between receiving it
and sending it back). -/
def holdsToken : PC → Bool
  | .acquired | .locked | .selecting | .selected => true
  | _ => false

/-- A thread holds a read lock exactly in state `reading`. -/
def isReading : PC → Bool
  | .reading => true
  | _ => false

/-- No thread of `ts` holds the write lock. -/
def noWriter (ts : List Thread) : Prop :=
  ∀ t ∈ ts, inWriteRegion t.pc = false

/-- No thread of `ts` holds a read lock. -/
def noReader (ts : List Thread) : Prop :=
  ∀ t ∈ ts, isReading t.pc = false

/-- The atomic steps of `doSelection`. The stepping thread sits between
`l₁` and `l₂`; every other thread is untouched. -/
inductive Step : Config → Config → Prop where
  /-- `case <-r.theConch` succeeds (line 95): the channel held the token. -/
  | recvOk (l₁ l₂ : List Thread) (t : Thread) : t.pc = .start →
      Step ⟨l₁ ++ t :: l₂, true⟩
        ⟨l₁ ++ { t with pc := .acquired, tookToken := true } :: l₂, false⟩
  /-- The `default` branch (line 139): the channel was empty. -/
  | recvFail (l₁ l₂ : List Thread) (t : Thread) : t.pc = .start →
      Step ⟨l₁ ++ t :: l₂, false⟩
        ⟨l₁ ++ { t with pc := .waiting } :: l₂, false⟩
  /-- `selectionInProgress.Lock()` (line 96): proceeds once no writer and
  no reader holds the mutex. -/
  | lock (l₁ l₂ : List Thread) (t : Thread) (c : Bool) : t.pc = .acquired →
      noWriter (l₁ ++ l₂) → noReader (l₁ ++ l₂) →
      Step ⟨l₁ ++ t :: l₂, c⟩ ⟨l₁ ++ { t with pc := .locked } :: l₂, c⟩
  /-- `r.selector.Select()` begins (line 102). -/
  | selectBegin (l₁ l₂ : List Thread) (t : Thread) (c : Bool) :
      t.pc = .locked →
      Step ⟨l₁ ++ t :: l₂, c⟩ ⟨l₁ ++ { t with pc := .selecting } :: l₂, c⟩
  /-- `Select()` returns; the merge policy and metrics (lines 104-134) run
  under the write lock. -/
  | selectEnd (l₁ l₂ : List Thread) (t : Thread) (c : Bool) :
      t.pc = .selecting →
      Step ⟨l₁ ++ t :: l₂, c⟩
        ⟨l₁ ++ { t with pc := .selected,
                        selectsDone := t.selectsDone + 1 } :: l₂, c⟩
  /-- `r.theConch <- struct{}{}` (line 138): the capacity-1 send needs the
  channel empty. -/
  | sendTok (l₁ l₂ : List Thread) (t : Thread) : t.pc = .selected →
      Step ⟨l₁ ++ t :: l₂, false⟩
        ⟨l₁ ++ { t with pc := .unlocking } :: l₂, true⟩
  /-- The deferred `selectionInProgress.Unlock()` (line 97) as the writer
  returns. -/
  | unlock (l₁ l₂ : List Thread) (t : Thread) (c : Bool) :
      t.pc = .unlocking →
      Step ⟨l₁ ++ t :: l₂, c⟩ ⟨l₁ ++ { t with pc := .done } :: l₂, c⟩
  /-- `selectionInProgress.RLock()` (line 143): proceeds once no writer
  holds the mutex. -/
  | rlock (l₁ l₂ : List Thread) (t : Thread) (c : Bool) : t.pc = .waiting →
      noWriter (l₁ ++ l₂) →
      Step ⟨l₁ ++ t :: l₂, c⟩ ⟨l₁ ++ { t with pc := .reading } :: l₂, c⟩
  /-- The deferred `RUnlock()` (line 144) as the waiter returns. -/
  | runlock (l₁ l₂ : List Thread) (t : Thread) (c : Bool) :
      t.pc = .reading →
      Step ⟨l₁ ++ t :: l₂, c⟩ ⟨l₁ ++ { t with pc := .done } :: l₂, c⟩

/-- `n` callers about to enter `doSelection`, with the token in the
channel (`NewRouter` deposits it at `router.go:67`). -/
def initConfig (n : Nat) : Config :=
  ⟨List.replicate n ⟨.start, false, 0⟩, true⟩

/-- Configurations reachable from `initConfig n` for some `n ≥ 1`. -/
inductive Reach : Config → Prop where
  | init (n : Nat) : 1 ≤ n → Reach (initConfig n)
  | step {c c' : Config} : Reach c → Step c c' → Reach c'

/-- The per-thread control invariant: which `selectsDone` count and which
program counters go with each value of `tookToken`. A thread that never
received the token stays on the `start → waiting → reading → done` path
and completes no `Select()`; a token holder walks the writer path and has
completed its `Select()` exactly from `selected` on. -/
def ThreadOK (t : Thread) : Bool :=
  match t.tookToken, t.pc with
  | false, .start => t.selectsDone == 0
  | false, .waiting => t.selectsDone == 0
  | false, .reading => t.selectsDone == 0
  | false, .done => t.selectsDone == 0
  | false, _ => false
  | true, .acquired => t.selectsDone == 0
  | true, .locked => t.selectsDone == 0
  | true, .selecting => t.selectsDone == 0
  | true, .selected => t.selectsDone == 1
  | true, .unlocking => t.selectsDone == 1
  | true, .done => t.selectsDone == 1
  | true, _ => false

/-- The global invariant: the conch token exists exactly once — either in
the channel or held by the unique thread between `<-theConch` and
`theConch <-` — and every thread satisfies `ThreadOK`. -/
def Inv (c : Config) : Prop :=
  (c.threads.countP fun t => holdsToken t.pc) +
      (if c.conch then 1 else 0) = 1 ∧
  ∀ t ∈ c.threads, ThreadOK t = true

/-! ## Sample values used by witnesses and counterexamples -/

/-- A sample endpoint URL. -/
def uA : URL := ⟨"http", "prom-a:9090", "/federate"⟩

/-- A second, distinct sample endpoint URL. -/
def uB : URL := ⟨"https", "prom-b:9090", "/federate"⟩

/-- A sample discovered endpoint. -/
def epA : PrometheusEndpoint := ⟨"http://prom-a:9090"⟩

/-- A second sample discovered endpoint. -/
def epB : PrometheusEndpoint := ⟨"https://prom-b:9090"⟩

/-- Sample strategy metadata. -/
def stratSample : StrategyMeta :=
  ⟨"minimum-history", "selects the endpoint with the fewest gaps", "scrape gaps"⟩

/-- The rewriter invariant of claim-level interest: every installed
rewrite rule captured a non-empty selection. -/
def RewriterInv (r : RouterCore) : Prop :=
  ∀ rule : RewriteRule, r.rewriter = some rule → rule.sel ≠ []

/-- The number of admitted endpoints of the stored selection result (the
spec's "admitted endpoints" are `Selection`, the subset the strategy
judged usable). -/
def admittedCount (r : RouterCore) : Nat :=
  match r.selection with
  | none => 0
  | some sel => sel.selection.length

/-- The spec's reading of the `Status` projection: the `Endpoints` field
holds the admitted endpoints of the current selection result, so in
particular it has as many entries as the stored `Selection`. Stated from
the spec's words, to be compared against `statusGo` (which copies
`Candidates`). -/
def statusReportsAdmitted (r : RouterCore) : Prop :=
  ∀ s : StatusT, statusGo r = .ok s → s.endpoints.length = admittedCount r

end Mpp

/-! # Theorems -/

namespace Mpp

/-! ## The `equal` check (`router.go:148-155`) -/

/-- If the loop of `equal` returns `true`, the final length comparison
succeeded. -/
theorem equalAux_ok_true_length (a0 b : List URL) :
    ∀ (rest : List URL) (i : Nat),
      equalAux a0 b rest i = .ok true → a0.length = b.length := by
  intro rest
  induction rest with
  | nil =>
    intro i h
    simpa [equalAux] using h
  | cons v rest ih =>
    intro i h
    unfold equalAux at h
    split at h
    · split at h
      · exact ih (i + 1) h
      · simp at h
    · simp at h

/-- The loop of `equal` cannot panic while the index stays within `b`. -/
theorem equalAux_total (a0 b : List URL) :
    ∀ (rest : List URL) (i : Nat), i + rest.length ≤ b.length →
      ∃ r, equalAux a0 b rest i = .ok r := by
  intro rest
  induction rest with
  | nil => intro i _; exact ⟨_, rfl⟩
  | cons v rest ih =>
    intro i hle
    have hi : i < b.length := by
      simp only [List.length_cons] at hle; omega
    unfold equalAux
    rw [dif_pos hi]
    by_cases hv : (v == b[i]) = true
    · rw [if_pos hv]
      exact ih (i + 1) (by simp only [List.length_cons] at hle; omega)
    · rw [if_neg hv]
      exact ⟨false, rfl⟩

/-- `equal` completes (no out-of-range panic) whenever `a` is no longer
than `b`. -/
theorem equal_total_of_le {a b : List URL} (h : a.length ≤ b.length) :
    ∃ r, equal a b = .ok r :=
  equalAux_total a b a 0 (by omega)

/-- `equal` returns `false` whenever `a` is strictly shorter than `b`. -/
theorem equal_ok_false_of_lt {a b : List URL} (h : a.length < b.length) :
    equal a b = .ok false := by
  obtain ⟨r, hr⟩ := equal_total_of_le (Nat.le_of_lt h)
  cases r with
  | true =>
    have := equalAux_ok_true_length a b a 0 hr
    omega
  | false => exact hr

/-- When `b` runs out before the walk of `a` does, the loop either
already returned `false` on a mismatch or panics at `b[i]`. -/
theorem equalAux_error_or_false (a0 b : List URL) :
    ∀ (rest : List URL) (i : Nat), i + rest.length = a0.length →
      b.length < a0.length →
      equalAux a0 b rest i = .error () ∨ equalAux a0 b rest i = .ok false := by
  intro rest
  induction rest with
  | nil =>
    intro i hi hlt
    right
    have hne : (a0.length == b.length) = false := by
      simp only [beq_eq_false_iff_ne, ne_eq]
      omega
    simp [equalAux, hne]
  | cons v rest ih =>
    intro i hi hlt
    unfold equalAux
    split
    · split
      · exact ih (i + 1) (by simp only [List.length_cons] at hi; omega) hlt
      · right; rfl
    · left; rfl

/-- `equal a b` with `a` strictly longer than `b` either returns `false`
(an early mismatch) or panics out of range. -/
theorem equal_error_or_false_of_gt {a b : List URL}
    (h : b.length < a.length) :
    equal a b = .error () ∨ equal a b = .ok false :=
  equalAux_error_or_false a b a 0 (by omega) h

/-- If the loop of `equal` returns `true`, the remaining suffix matched
`b` from position `i` on. -/
theorem equalAux_ok_true_drop (a0 b : List URL) :
    ∀ (rest : List URL) (i : Nat), i + rest.length = a0.length →
      equalAux a0 b rest i = .ok true → rest = b.drop i := by
  intro rest
  induction rest with
  | nil =>
    intro i hi h
    have hlen : a0.length = b.length := by
      simpa [equalAux] using h
    simp only [List.length_nil, Nat.add_zero] at hi
    have : i = b.length := by omega
    rw [this, List.drop_length]
  | cons v rest ih =>
    intro i hi h
    unfold equalAux at h
    split at h
    · rename_i hib
      split at h
      · rename_i hv
        have hv' : v = b[i] := by
          exact eq_of_beq hv
        have hrest : rest = b.drop (i + 1) :=
          ih (i + 1) (by simp only [List.length_cons] at hi; omega) h
        rw [List.drop_eq_getElem_cons hib, ← hv', ← hrest]
      · simp at h
    · simp at h

/-- The loop of `equal` accepts the matching suffix of `b` itself. -/
theorem equalAux_self (b : List URL) :
    ∀ (rest : List URL) (i : Nat), rest = b.drop i →
      equalAux b b rest i = .ok true := by
  intro rest
  induction rest with
  | nil => intro i _; simp [equalAux]
  | cons v rest ih =>
    intro i hdrop
    have hib : i < b.length := by
      by_contra hle
      rw [List.drop_eq_nil_of_le (by omega)] at hdrop
      exact List.cons_ne_nil v rest hdrop
    rw [List.drop_eq_getElem_cons hib] at hdrop
    obtain ⟨hv, hrest⟩ : v = b[i] ∧ rest = b.drop (i + 1) := by
      constructor
      · exact (List.cons.injEq .. ▸ hdrop).1
      · exact (List.cons.injEq .. ▸ hdrop).2
    unfold equalAux
    rw [dif_pos hib, if_pos (by rw [hv]; exact beq_self_eq_true _)]
    exact ih (i + 1) hrest

/-- `equal` returns `true` exactly on equal lists: the "selection
unchanged" test of `router.go:118` is element-wise, order-sensitive
equality — when it completes. -/
theorem equal_ok_true_iff {a b : List URL} :
    equal a b = .ok true ↔ a = b := by
  constructor
  · intro h
    have := equalAux_ok_true_drop a b a 0 (by omega) h
    simpa using this
  · rintro rfl
    exact equalAux_self a a 0 (by simp)

/-! ## The merge/replace policy of `doSelection` (`router.go:104-131`) -/

/-- Empty selection, non-nil error, previous result stored: the stored
result is kept untouched (`router.go:107-109` leaves `r.selection`). -/
theorem mergePhase_empty_err_keep {r : RouterCore} {result : Result}
    {err : Option GoError} {p : Result} (hsel : r.selection = some p)
    (hres : result.selection = []) (herr : err.isSome = true) :
    mergePhase r result err = .ok r := by
  unfold mergePhase
  rw [hres]
  simp [hsel, herr]

/-- Empty selection, non-nil error, nothing stored yet: the error result
is adopted (`router.go:107-109`). -/
theorem mergePhase_empty_err_adopt {r : RouterCore} {result : Result}
    {err : Option GoError} (hsel : r.selection = none)
    (hres : result.selection = []) (herr : err.isSome = true) :
    mergePhase r result err = .ok { r with selection := some result } := by
  unfold mergePhase
  rw [hres]
  simp [hsel, herr]

/-- Empty selection with no error: the explicit "no backends" result
replaces whatever was stored (`router.go:110-112`). -/
theorem mergePhase_empty_noerr {r : RouterCore} {result : Result}
    (hres : result.selection = []) :
    mergePhase r result none = .ok { r with selection := some result } := by
  unfold mergePhase
  rw [hres]
  simp

/-- Non-empty selection, nothing stored yet: a rewriter over the new
selection is installed and the result stored; `equal` is never consulted
(`router.go:118` short-circuits on `r.selection == nil`). -/
theorem mergePhase_nonempty_none {r : RouterCore} {result : Result}
    {err : Option GoError} (hres : result.selection ≠ [])
    (hsel : r.selection = none) :
    mergePhase r result err =
      .ok { r with rewriter := some ⟨result.selection⟩,
                   rewriteInstalls := r.rewriteInstalls + 1,
                   selection := some result } := by
  have hie : result.selection.isEmpty = false := by
    cases hc : result.selection with
    | nil => exact absurd hc hres
    | cons v rest => rfl
  unfold mergePhase
  rw [hie]
  simp [hsel, pure, Except.pure]
  rfl

/-- Non-empty selection equal (element-wise, in order) to the stored one:
the rewriter is left in place, the stored result still replaced
(`router.go:127-130`). -/
theorem mergePhase_nonempty_some_eq {r : RouterCore} {result : Result}
    {err : Option GoError} {p : Result} (hres : result.selection ≠ [])
    (hsel : r.selection = some p)
    (heq : equal p.selection result.selection = .ok true) :
    mergePhase r result err = .ok { r with selection := some result } := by
  have hie : result.selection.isEmpty = false := by
    cases hc : result.selection with
    | nil => exact absurd hc hres
    | cons v rest => rfl
  unfold mergePhase
  rw [hie]
  simp [hsel, heq, pure, Except.pure]
  rfl

/-- Non-empty selection differing from the stored one (`equal` completed
and returned `false`): a rewriter over the new selection is installed and
the result stored (`router.go:118-126, 130`). -/
theorem mergePhase_nonempty_some_ne {r : RouterCore} {result : Result}
    {err : Option GoError} {p : Result} (hres : result.selection ≠ [])
    (hsel : r.selection = some p)
    (heq : equal p.selection result.selection = .ok false) :
    mergePhase r result err =
      .ok { r with rewriter := some ⟨result.selection⟩,
                   rewriteInstalls := r.rewriteInstalls + 1,
                   selection := some result } := by
  have hie : result.selection.isEmpty = false := by
    cases hc : result.selection with
    | nil => exact absurd hc hres
    | cons v rest => rfl
  unfold mergePhase
  rw [hie]
  simp [hsel, heq, pure, Except.pure]
  rfl

/-- Non-empty selection against a longer stored one whose prefix matches:
`equal` panics, the pass dies with nothing updated (`router.go:118`,
`router.go:150`). -/
theorem mergePhase_nonempty_some_panic {r : RouterCore} {result : Result}
    {err : Option GoError} {p : Result} (hres : result.selection ≠ [])
    (hsel : r.selection = some p)
    (heq : equal p.selection result.selection = .error ()) :
    mergePhase r result err = .error () := by
  have hie : result.selection.isEmpty = false := by
    cases hc : result.selection with
    | nil => exact absurd hc hres
    | cons v rest => rfl
  unfold mergePhase
  rw [hie]
  simp [hsel, heq, pure, Except.pure]
  rfl

/-! ## The full writer pass (merge + metrics) -/

/-- A completed merge phase makes the whole pass complete, with the
metrics of `router.go:133-134` applied on top. -/
theorem writerPass_of_merge {r : RouterCore} {result : Result}
    {err : Option GoError} {mid : RouterCore}
    (h : mergePhase r result err = .ok mid) :
    writerPass r result err =
      .ok { mid with gaugeSelectedBackends := result.selection.length,
                     counterSelectionEvents := mid.counterSelectionEvents + 1 } := by
  unfold writerPass
  rw [h]
  rfl

/-- A panicking merge phase kills the whole pass: the metrics lines never
run. -/
theorem writerPass_of_merge_error {r : RouterCore} {result : Result}
    {err : Option GoError} (h : mergePhase r result err = .error ()) :
    writerPass r result err = .error () := by
  unfold writerPass
  rw [h]
  rfl

/-- Inversion: a completed pass is a completed merge phase plus the
metrics update. -/
theorem writerPass_ok_elim {r : RouterCore} {result : Result}
    {err : Option GoError} {r' : RouterCore}
    (h : writerPass r result err = .ok r') :
    ∃ mid, mergePhase r result err = .ok mid ∧
      r' = { mid with gaugeSelectedBackends := result.selection.length,
                      counterSelectionEvents := mid.counterSelectionEvents + 1 } := by
  unfold writerPass at h
  cases hm : mergePhase r result err with
  | error e =>
    rw [hm] at h
    simp [Except.map] at h
  | ok mid =>
    rw [hm] at h
    simp only [Except.map, Except.ok.injEq] at h
    exact ⟨mid, rfl, h.symm⟩

/-- Case analysis on a completed merge phase: where the stored selection
and the rewriter can come from, and which fields the merge never touches. -/
theorem mergePhase_ok_cases {r : RouterCore} {result : Result}
    {err : Option GoError} {mid : RouterCore}
    (h : mergePhase r result err = .ok mid) :
    (mid.selection = some result ∨
      (mid.selection = r.selection ∧ r.selection.isSome = true)) ∧
    (mid.rewriter = r.rewriter ∨
      (mid.rewriter = some ⟨result.selection⟩ ∧ result.selection ≠ [])) ∧
    mid.counterSelectionEvents = r.counterSelectionEvents ∧
    mid.gaugeSelectedBackends = r.gaugeSelectedBackends ∧
    mid.strategy = r.strategy ∧
    mid.affinityOptions = r.affinityOptions ∧
    mid.intervalNs = r.intervalNs := by
  by_cases hres : result.selection = []
  · cases herr : err with
    | none =>
      rw [herr] at h
      rw [mergePhase_empty_noerr hres] at h
      injection h with h
      subst h
      simp
    | some e =>
      rw [herr] at h
      cases hsel : r.selection with
      | none =>
        rw [@mergePhase_empty_err_adopt r result (some e) hsel hres rfl] at h
        injection h with h
        subst h
        simp
      | some p =>
        rw [@mergePhase_empty_err_keep r result (some e) p hsel hres rfl] at h
        injection h with h
        subst h
        simp [hsel]
  · cases hsel : r.selection with
    | none =>
      rw [mergePhase_nonempty_none hres hsel] at h
      injection h with h
      subst h
      simp [hres]
    | some p =>
      cases heq : equal p.selection result.selection with
      | error e =>
        cases e
        rw [mergePhase_nonempty_some_panic hres hsel heq] at h
        cases h
      | ok bv =>
        cases bv with
        | true =>
          rw [mergePhase_nonempty_some_eq hres hsel heq] at h
          injection h with h
          subst h
          simp
        | false =>
          rw [mergePhase_nonempty_some_ne hres hsel heq] at h
          injection h with h
          subst h
          simp [hres]

/-- A completed writer pass always leaves a stored selection result. -/
theorem writerPass_ok_isSome {r : RouterCore} {result : Result}
    {err : Option GoError} {r' : RouterCore}
    (h : writerPass r result err = .ok r') :
    r'.selection.isSome = true := by
  obtain ⟨mid, hm, rfl⟩ := writerPass_ok_elim h
  rcases (mergePhase_ok_cases hm).1 with hmid | ⟨hmid, hsome⟩
  · simp [hmid]
  · simp only [hmid]
    exact hsome

/-- A completed writer pass sets the gauge to the new selection's size
and bumps the event counter by exactly one. -/
theorem writerPass_metrics {r : RouterCore} {result : Result}
    {err : Option GoError} {r' : RouterCore}
    (h : writerPass r result err = .ok r') :
    r'.gaugeSelectedBackends = result.selection.length ∧
    r'.counterSelectionEvents = r.counterSelectionEvents + 1 := by
  obtain ⟨mid, hm, rfl⟩ := writerPass_ok_elim h
  exact ⟨rfl, by rw [(mergePhase_ok_cases hm).2.2.1]⟩

/-- A completed writer pass preserves the rewriter invariant: any
installed rule captures a non-empty selection. -/
theorem writerPass_rewriterInv {r : RouterCore} {result : Result}
    {err : Option GoError} {r' : RouterCore} (hinv : RewriterInv r)
    (h : writerPass r result err = .ok r') : RewriterInv r' := by
  obtain ⟨mid, hm, rfl⟩ := writerPass_ok_elim h
  intro rule hrule
  rcases (mergePhase_ok_cases hm).2.1 with hmid | ⟨hmid, hne⟩
  · exact hinv rule (by rw [← hmid]; exact hrule)
  · simp only [hmid] at hrule
    injection hrule with hrule
    rw [← hrule]
    exact hne

/-- With nothing stored yet, a writer pass cannot panic: the only
panicking statement, `equal`, sits behind `r.selection == nil ||`. -/
theorem writerPass_none_ok {r : RouterCore} {result : Result}
    {err : Option GoError} (hsel : r.selection = none) :
    ∃ r', writerPass r result err = .ok r' := by
  by_cases hres : result.selection = []
  · cases herr : err with
    | none => exact ⟨_, writerPass_of_merge (mergePhase_empty_noerr hres)⟩
    | some e =>
      exact ⟨_, writerPass_of_merge
        (@mergePhase_empty_err_adopt r result (some e) hsel hres rfl)⟩
  · exact ⟨_, writerPass_of_merge (mergePhase_nonempty_none hres hsel)⟩

/-! ## The refresh loop -/

/-- The timer loop preserves "a selection result is stored". -/
theorem runRefreshes_isSome :
    ∀ (evs : List (Result × Option GoError)) (r r' : RouterCore),
      runRefreshes r evs = .ok r' → r.selection.isSome = true →
      r'.selection.isSome = true := by
  intro evs
  induction evs with
  | nil =>
    intro r r' h hs
    unfold runRefreshes at h
    injection h with h
    rwa [← h]
  | cons ev rest ih =>
    intro r r' h hs
    obtain ⟨result, err⟩ := ev
    unfold runRefreshes at h
    split at h
    · cases h
    · rename_i r1 hw
      exact ih r1 r' h (writerPass_ok_isSome hw)

/-- The timer loop preserves the rewriter invariant. -/
theorem runRefreshes_rewriterInv :
    ∀ (evs : List (Result × Option GoError)) (r r' : RouterCore),
      runRefreshes r evs = .ok r' → RewriterInv r → RewriterInv r' := by
  intro evs
  induction evs with
  | nil =>
    intro r r' h hs
    unfold runRefreshes at h
    injection h with h
    rwa [← h]
  | cons ev rest ih =>
    intro r r' h hs
    obtain ⟨result, err⟩ := ev
    unfold runRefreshes at h
    split at h
    · cases h
    · rename_i r1 hw
      exact ih r1 r' h (writerPass_rewriterInv hs hw)

/-- `Status()` completes exactly when a selection result is stored. -/
theorem statusGo_ok_of_isSome {r : RouterCore}
    (h : r.selection.isSome = true) : ∃ s, statusGo r = .ok s := by
  cases hsel : r.selection with
  | none => rw [hsel] at h; cases h
  | some sel => exact ⟨_, by unfold statusGo; rw [hsel]⟩

/-! ## The rewriter closure -/

/-- When the strategy returns an in-range index, the rewriter completes
and copies host and scheme from the selected endpoint, leaving the rest
of the URL alone. -/
theorem rewriteRule_apply_ok (rule : RewriteRule)
    (nextIndex : List URL → Nat) (u : URL)
    (h : nextIndex rule.sel < rule.sel.length) :
    rule.apply nextIndex u =
      .ok { u with host := (rule.sel.get ⟨nextIndex rule.sel, h⟩).host,
                   scheme := (rule.sel.get ⟨nextIndex rule.sel, h⟩).scheme } := by
  unfold RewriteRule.apply
  rw [dif_pos h]
  simp [List.get_eq_getElem]

/-! ## The retry driver -/

/-- One unfolding of the retry loop. -/
theorem retryLoop_unfold (transport : Nat → AttemptOutcome) (attempt : Nat) :
    retryLoop transport attempt =
      if shouldRetry (transport attempt) attempt then
        retryLoop transport (attempt + 1)
      else
        (attempt, transport attempt) := by
  rw [retryLoop]
  split
  · rfl
  · rfl

/-- A transport that fails with a network error on the first attempt and
succeeds on the second yields exactly 2 attempts and success. -/
theorem dispatch_fail_once {transport : Nat → AttemptOutcome}
    (h1 : transport 1 = .networkError) (h2 : transport 2 = .success) :
    dispatchWithRetry transport = (2, .success) := by
  unfold dispatchWithRetry
  rw [retryLoop_unfold, h1]
  rw [if_pos (by rfl)]
  rw [retryLoop_unfold, h2]
  rfl

/-- A transport that always fails with network errors yields exactly 2
attempts and surfaces the network failure. -/
theorem dispatch_always_fail {transport : Nat → AttemptOutcome}
    (h : ∀ n, transport n = .networkError) :
    dispatchWithRetry transport = (2, .networkError) := by
  unfold dispatchWithRetry
  rw [retryLoop_unfold, h 1]
  rw [if_pos (by rfl)]
  rw [retryLoop_unfold, h 2]
  rfl

/-- A non-network failure is never retried: one attempt, failure
surfaced. -/
theorem dispatch_app_error {transport : Nat → AttemptOutcome}
    (h1 : transport 1 = .appError) :
    dispatchWithRetry transport = (1, .appError) := by
  unfold dispatchWithRetry
  rw [retryLoop_unfold, h1]
  rfl

/-- A first-attempt success makes exactly one attempt. -/
theorem dispatch_success {transport : Nat → AttemptOutcome}
    (h1 : transport 1 = .success) :
    dispatchWithRetry transport = (1, .success) := by
  unfold dispatchWithRetry
  rw [retryLoop_unfold, h1]
  rfl

/-! ## Invariants of the concurrent `doSelection` semantics -/

/-- Counting over the decomposition a step uses. -/
theorem countP_middle (p : Thread → Bool) (l₁ l₂ : List Thread)
    (t : Thread) :
    (l₁ ++ t :: l₂).countP p =
      (l₁.countP p + l₂.countP p) + (if p t then 1 else 0) := by
  rw [List.countP_append, List.countP_cons]
  omega

/-- Replacing the stepping thread preserves `ThreadOK` everywhere, given
it holds for the replacement. -/
theorem threadOK_middle {l₁ l₂ : List Thread} {t t' : Thread}
    (hall : ∀ u ∈ l₁ ++ t :: l₂, ThreadOK u = true)
    (ht' : ThreadOK t' = true) :
    ∀ u ∈ l₁ ++ t' :: l₂, ThreadOK u = true := by
  intro u hu
  rcases List.mem_append.mp hu with h1 | h2
  · exact hall u (List.mem_append.mpr (.inl h1))
  · rcases List.mem_cons.mp h2 with rfl | h3
    · exact ht'
    · exact hall u (List.mem_append.mpr (.inr (List.mem_cons.mpr (.inr h3))))

/-- The invariant holds initially: the token sits in the channel and all
threads are at `start`. -/
theorem inv_init (n : Nat) : Inv (initConfig n) := by
  constructor
  · have : ((List.replicate n (⟨.start, false, 0⟩ : Thread)).countP
        fun t => holdsToken t.pc) = 0 := by
      apply List.countP_eq_zero.mpr
      intro a ha
      rw [List.eq_of_mem_replicate ha]
      simp [holdsToken]
    simpa [initConfig] using this
  · intro t ht
    rw [List.eq_of_mem_replicate ht]
    rfl

/-- Every step of the semantics preserves the invariant. -/
theorem step_inv {c c' : Config} (hstep : Step c c') (hinv : Inv c) :
    Inv c' := by
  obtain ⟨hcount, hok⟩ := hinv
  cases hstep with
  | recvOk l₁ l₂ t hpc =>
    obtain ⟨pc, took, sd⟩ := t
    simp only at hpc
    subst hpc
    have hOKt : ThreadOK ⟨.start, took, sd⟩ = true := hok _ (by simp)
    cases took with
    | true => simp [ThreadOK] at hOKt
    | false =>
      have hsd : sd = 0 := by simpa [ThreadOK] using hOKt
      constructor
      · simp only [countP_middle] at hcount ⊢
        simp only [holdsToken] at hcount ⊢
        simp at hcount ⊢
        try omega
        try exact hcount
      · exact threadOK_middle hok (by simp [ThreadOK, hsd])
  | recvFail l₁ l₂ t hpc =>
    obtain ⟨pc, took, sd⟩ := t
    simp only at hpc
    subst hpc
    have hOKt : ThreadOK ⟨.start, took, sd⟩ = true := hok _ (by simp)
    cases took with
    | true => simp [ThreadOK] at hOKt
    | false =>
      have hsd : sd = 0 := by simpa [ThreadOK] using hOKt
      constructor
      · simp only [countP_middle] at hcount ⊢
        simp only [holdsToken] at hcount ⊢
        simp at hcount ⊢
        try omega
        try exact hcount
      · exact threadOK_middle hok (by simp [ThreadOK, hsd])
  | lock l₁ l₂ t conch hpc hw hr =>
    obtain ⟨pc, took, sd⟩ := t
    simp only at hpc
    subst hpc
    have hOKt : ThreadOK ⟨.acquired, took, sd⟩ = true := hok _ (by simp)
    cases took with
    | false => simp [ThreadOK] at hOKt
    | true =>
      have hsd : sd = 0 := by simpa [ThreadOK] using hOKt
      constructor
      · simp only [countP_middle] at hcount ⊢
        simp only [holdsToken] at hcount ⊢
        simp at hcount ⊢
        try omega
        try exact hcount
      · exact threadOK_middle hok (by simp [ThreadOK, hsd])
  | selectBegin l₁ l₂ t conch hpc =>
    obtain ⟨pc, took, sd⟩ := t
    simp only at hpc
    subst hpc
    have hOKt : ThreadOK ⟨.locked, took, sd⟩ = true := hok _ (by simp)
    cases took with
    | false => simp [ThreadOK] at hOKt
    | true =>
      have hsd : sd = 0 := by simpa [ThreadOK] using hOKt
      constructor
      · simp only [countP_middle] at hcount ⊢
        simp only [holdsToken] at hcount ⊢
        simp at hcount ⊢
        try omega
        try exact hcount
      · exact threadOK_middle hok (by simp [ThreadOK, hsd])
  | selectEnd l₁ l₂ t conch hpc =>
    obtain ⟨pc, took, sd⟩ := t
    simp only at hpc
    subst hpc
    have hOKt : ThreadOK ⟨.selecting, took, sd⟩ = true := hok _ (by simp)
    cases took with
    | false => simp [ThreadOK] at hOKt
    | true =>
      have hsd : sd = 0 := by simpa [ThreadOK] using hOKt
      constructor
      · simp only [countP_middle] at hcount ⊢
        simp only [holdsToken] at hcount ⊢
        simp at hcount ⊢
        try omega
        try exact hcount
      · exact threadOK_middle hok (by simp [ThreadOK, hsd])
  | sendTok l₁ l₂ t hpc =>
    obtain ⟨pc, took, sd⟩ := t
    simp only at hpc
    subst hpc
    have hOKt : ThreadOK ⟨.selected, took, sd⟩ = true := hok _ (by simp)
    cases took with
    | false => simp [ThreadOK] at hOKt
    | true =>
      have hsd : sd = 1 := by simpa [ThreadOK] using hOKt
      constructor
      · simp only [countP_middle] at hcount ⊢
        simp only [holdsToken] at hcount ⊢
        simp at hcount ⊢
        try omega
        try exact hcount
      · exact threadOK_middle hok (by simp [ThreadOK, hsd])
  | unlock l₁ l₂ t conch hpc =>
    obtain ⟨pc, took, sd⟩ := t
    simp only at hpc
    subst hpc
    have hOKt : ThreadOK ⟨.unlocking, took, sd⟩ = true := hok _ (by simp)
    cases took with
    | false => simp [ThreadOK] at hOKt
    | true =>
      have hsd : sd = 1 := by simpa [ThreadOK] using hOKt
      constructor
      · simp only [countP_middle] at hcount ⊢
        simp only [holdsToken] at hcount ⊢
        simp at hcount ⊢
        try omega
        try exact hcount
      · exact threadOK_middle hok (by simp [ThreadOK, hsd])
  | rlock l₁ l₂ t conch hpc hw =>
    obtain ⟨pc, took, sd⟩ := t
    simp only at hpc
    subst hpc
    have hOKt : ThreadOK ⟨.waiting, took, sd⟩ = true := hok _ (by simp)
    cases took with
    | true => simp [ThreadOK] at hOKt
    | false =>
      have hsd : sd = 0 := by simpa [ThreadOK] using hOKt
      constructor
      · simp only [countP_middle] at hcount ⊢
        simp only [holdsToken] at hcount ⊢
        simp at hcount ⊢
        try omega
        try exact hcount
      · exact threadOK_middle hok (by simp [ThreadOK, hsd])
  | runlock l₁ l₂ t conch hpc =>
    obtain ⟨pc, took, sd⟩ := t
    simp only at hpc
    subst hpc
    have hOKt : ThreadOK ⟨.reading, took, sd⟩ = true := hok _ (by simp)
    cases took with
    | true => simp [ThreadOK] at hOKt
    | false =>
      have hsd : sd = 0 := by simpa [ThreadOK] using hOKt
      constructor
      · simp only [countP_middle] at hcount ⊢
        simp only [holdsToken] at hcount ⊢
        simp at hcount ⊢
        try omega
        try exact hcount
      · exact threadOK_middle hok (by simp [ThreadOK, hsd])

/-- Every reachable configuration satisfies the invariant. -/
theorem reach_inv {c : Config} (h : Reach c) : Inv c := by
  induction h with
  | init n hn => exact inv_init n
  | step hr hs ih => exact step_inv hs ih

/-- A thread that never took the token has completed no `Select()`. -/
theorem threadOK_no_token_no_select {t : Thread} (h : ThreadOK t = true)
    (htook : t.tookToken = false) : t.selectsDone = 0 := by
  obtain ⟨pc, took, sd⟩ := t
  simp only at htook
  subst htook
  cases pc <;> simp [ThreadOK] at h <;> exact h

/-- A token-taking thread that has returned completed exactly one
`Select()`. -/
theorem threadOK_done_writer {t : Thread} (h : ThreadOK t = true)
    (htook : t.tookToken = true) (hpc : t.pc = .done) :
    t.selectsDone = 1 := by
  obtain ⟨pc, took, sd⟩ := t
  simp only at htook hpc
  subst htook
  subst hpc
  simpa [ThreadOK] using h

/-- At most one thread is inside `Select()` in any reachable
configuration: `selecting` threads hold the token, and the token is
unique. -/
theorem reach_mutex {c : Config} (h : Reach c) :
    (c.threads.countP fun t => t.pc == PC.selecting) ≤ 1 := by
  have hinv := reach_inv h
  have hmono : (c.threads.countP fun t => t.pc == PC.selecting) ≤
      c.threads.countP fun t => holdsToken t.pc := by
    apply List.countP_mono_left
    intro t _ hp
    have : t.pc = PC.selecting := by simpa using hp
    simp [this, holdsToken]
  have hle : (c.threads.countP fun t => holdsToken t.pc) ≤ 1 := by
    have := hinv.1
    omega
  omega

/-! ## Claims -/

/-- **C1**, corrected. In every reachable configuration of concurrent
`doSelection` callers: at most one thread is inside `Select()`; a caller
that never acquired the turn token has performed no selection work; and a
token-acquiring caller that has returned completed exactly one selection
attempt of its own. (The original claim's "every caller returns only
after a selection attempt has completed" fails: see the counterexample,
where a non-acquiring caller slips through `RLock` in the window between
the writer's token receive and its `Lock` and returns with no `Select()`
completed.) -/
theorem claim_c1 (c : Config) (h : Reach c) :
    ((c.threads.countP fun t => t.pc == PC.selecting) ≤ 1) ∧
    (∀ t ∈ c.threads, t.tookToken = false → t.selectsDone = 0) ∧
    (∀ t ∈ c.threads, t.tookToken = true → t.pc = PC.done →
      t.selectsDone = 1) := by
  refine ⟨reach_mutex h, ?_, ?_⟩
  · intro t ht htook
    exact threadOK_no_token_no_select ((reach_inv h).2 t ht) htook
  · intro t ht htook hpc
    exact threadOK_done_writer ((reach_inv h).2 t ht) htook hpc

/-- Witness for C1 at the two-caller initial configuration. -/
theorem claim_c1_witness :
    (((initConfig 2).threads.countP fun t => t.pc == PC.selecting) ≤ 1) ∧
    (∀ t ∈ (initConfig 2).threads, t.tookToken = false →
      t.selectsDone = 0) ∧
    (∀ t ∈ (initConfig 2).threads, t.tookToken = true → t.pc = PC.done →
      t.selectsDone = 1) :=
  claim_c1 (initConfig 2) (Reach.init 2 (by decide))

/-- **C1**, counterexample to the claim as stated: it is not true that
every caller of `doSelection` returns only after some selection attempt
has completed. Trace with two callers: caller 1 receives the conch
(`router.go:95`) but has not yet taken the write lock (`router.go:96`);
caller 2 hits `default`, takes the read lock immediately — nobody holds
the write lock — releases it and returns, while no `Select()` has even
begun. -/
theorem claim_c1_counterexample :
    ¬ (∀ c : Config, Reach c → ∀ t ∈ c.threads, t.pc = PC.done →
        ∃ t' ∈ c.threads, 1 ≤ t'.selectsDone) := by
  intro hclaim
  have h0 : Reach (initConfig 2) := Reach.init 2 (by decide)
  have h1 : Reach ⟨[⟨.acquired, true, 0⟩, ⟨.start, false, 0⟩], false⟩ :=
    Reach.step h0 (Step.recvOk [] [⟨.start, false, 0⟩] ⟨.start, false, 0⟩ rfl)
  have h2 : Reach ⟨[⟨.acquired, true, 0⟩, ⟨.waiting, false, 0⟩], false⟩ :=
    Reach.step h1
      (Step.recvFail [⟨.acquired, true, 0⟩] [] ⟨.start, false, 0⟩ rfl)
  have h3 : Reach ⟨[⟨.acquired, true, 0⟩, ⟨.reading, false, 0⟩], false⟩ :=
    Reach.step h2
      (Step.rlock [⟨.acquired, true, 0⟩] [] ⟨.waiting, false, 0⟩ false rfl
        (by intro u hu; simp at hu; subst hu; rfl))
  have h4 : Reach ⟨[⟨.acquired, true, 0⟩, ⟨.done, false, 0⟩], false⟩ :=
    Reach.step h3
      (Step.runlock [⟨.acquired, true, 0⟩] [] ⟨.reading, false, 0⟩ false rfl)
  rcases hclaim _ h4 ⟨.done, false, 0⟩ (by simp) rfl with ⟨t', ht', hsd⟩
  simp only [List.mem_cons, List.mem_singleton] at ht'
  rcases ht' with rfl | rfl | h
  · simp at hsd
  · simp at hsd
  · simp at h

/-- **C2**, confirmed. With a selection result already stored, a refresh
whose `Selection` is empty and whose error is non-nil leaves the stored
result unchanged; with nothing stored, the error result is adopted. -/
theorem claim_c2 (res : Result) (err : Option GoError)
    (hres : res.selection = []) (herr : err.isSome = true) :
    (∀ (r : RouterCore) (p : Result), r.selection = some p →
      ∃ r', writerPass r res err = .ok r' ∧ r'.selection = some p) ∧
    (∀ r : RouterCore, r.selection = none →
      ∃ r', writerPass r res err = .ok r' ∧ r'.selection = some res) := by
  constructor
  · intro r p hp
    exact ⟨_, writerPass_of_merge (mergePhase_empty_err_keep hp hres herr),
      by simp [hp]⟩
  · intro r hn
    exact ⟨_, writerPass_of_merge (mergePhase_empty_err_adopt hn hres herr),
      by simp⟩

/-- Witness for C2: a stored non-empty selection survives an errored
empty refresh; an empty router adopts it. -/
theorem claim_c2_witness :
    (∃ r', writerPass
        { initialCore stratSample [] 1 with selection := some ⟨[epA], [uA]⟩ }
        ⟨[], []⟩ (some ⟨"connection refused"⟩) = .ok r' ∧
      r'.selection = some ⟨[epA], [uA]⟩) ∧
    (∃ r', writerPass (initialCore stratSample [] 1)
        ⟨[], []⟩ (some ⟨"connection refused"⟩) = .ok r' ∧
      r'.selection = some ⟨[], []⟩) :=
  ⟨(claim_c2 ⟨[], []⟩ (some ⟨"connection refused"⟩) rfl rfl).1 _
      ⟨[epA], [uA]⟩ rfl,
   (claim_c2 ⟨[], []⟩ (some ⟨"connection refused"⟩) rfl rfl).2 _ rfl⟩

/-- **C4**, counterexample to the claim as stated: `equal` is not total —
with `len(a) > len(b)` and the shared prefix matching, `b[i]` panics out
of range. Here `a = [uA]`, `b = []`: the very first access `b[0]`
panics. -/
theorem claim_c4_counterexample :
    ([uA] : List URL).length ≠ ([] : List URL).length ∧
    equal [uA] [] = .error () :=
  ⟨by decide, rfl⟩

/-- **C4**, corrected. `equal a b` completes whenever `a` is no longer
than `b`; it returns `false` whenever `a` is strictly shorter; when `a`
is strictly longer it either returns `false` on an early mismatch or
panics out of range; and it returns `true` exactly on equal lists. -/
theorem claim_c4 (a b : List URL) :
    (a.length ≤ b.length → ∃ r, equal a b = .ok r) ∧
    (a.length < b.length → equal a b = .ok false) ∧
    (b.length < a.length → equal a b = .error () ∨ equal a b = .ok false) ∧
    (equal a b = .ok true ↔ a = b) :=
  ⟨fun h => equal_total_of_le h, fun h => equal_ok_false_of_lt h,
   fun h => equal_error_or_false_of_gt h, equal_ok_true_iff⟩

/-- Witness for C4 on concrete slices: shorter-than returns `false`;
longer-than panics here (matching prefix); equal lists return `true`. -/
theorem claim_c4_witness :
    equal [uA] [uA, uB] = .ok false ∧
    (equal [uA, uB] [uA] = .error () ∨ equal [uA, uB] [uA] = .ok false) ∧
    equal [uA, uB] [uA, uB] = .ok true :=
  ⟨(claim_c4 [uA] [uA, uB]).2.1 (by decide),
   (claim_c4 [uA, uB] [uA]).2.2.1 (by decide),
   (claim_c4 [uA, uB] [uA, uB]).2.2.2.mpr rfl⟩

/-- **C5**, confirmed (the retry driver is modelled from the spec, the
predicate from `router.go:85`): a retry happens only on a network-level
failure with fewer than 2 attempts made; failing once with a network
error then succeeding gives exactly 2 attempts and success; always
failing with network errors gives exactly 2 attempts then surfaces the
failure; a non-network error is never retried. -/
theorem claim_c5 (transport : Nat → AttemptOutcome) :
    (∀ (o : AttemptOutcome) (n : Nat),
      shouldRetry o n = true ↔ (o = .networkError ∧ n < 2)) ∧
    (transport 1 = .networkError → transport 2 = .success →
      dispatchWithRetry transport = (2, .success)) ∧
    ((∀ n, transport n = .networkError) →
      dispatchWithRetry transport = (2, .networkError)) ∧
    (transport 1 = .appError → dispatchWithRetry transport = (1, .appError)) := by
  refine ⟨?_, fun h1 h2 => dispatch_fail_once h1 h2,
    fun h => dispatch_always_fail h, fun h => dispatch_app_error h⟩
  intro o n
  cases o <;> simp [shouldRetry]

/-- Witness for C5 on three concrete transports. -/
theorem claim_c5_witness :
    dispatchWithRetry
        (fun n => if n == 1 then .networkError else .success) =
      (2, .success) ∧
    dispatchWithRetry (fun _ => AttemptOutcome.networkError) =
      (2, .networkError) ∧
    dispatchWithRetry (fun _ => AttemptOutcome.appError) = (1, .appError) :=
  ⟨(claim_c5 _).2.1 rfl rfl,
   (claim_c5 _).2.2.1 (fun _ => rfl),
   (claim_c5 _).2.2.2 rfl⟩

/-- **C3**, counterexample to the claim as stated: the previous selection
is `[uA, uB]`, the new one `[uA]` — non-empty and different under
element-wise order-sensitive equality, so the claim requires a new
rewriter to be installed and the stored result replaced. Instead the
pass panics inside `equal` (`b[1]` with `len(b) = 1`) and nothing is
updated. -/
theorem claim_c3_counterexample :
    ([uA] : List URL) ≠ [uA, uB] ∧
    writerPass
        { initialCore stratSample [] 1 with
            selection := some ⟨[epA, epB], [uA, uB]⟩,
            rewriter := some ⟨[uA, uB]⟩ }
        ⟨[epA], [uA]⟩ none = .error () :=
  ⟨by decide, rfl⟩

/-- **C3**, corrected. For a refresh with non-empty `Selection`: with
nothing stored, a new rewriter over the new selection is installed and
the result stored; with a previous result, the stability check `equal`
decides — it returns `true` exactly on element-wise (order-sensitive)
equal selections, in which case the rewriter is kept and only the stored
result is replaced; on `false` a new rewriter is installed and the
result stored; but when `equal` panics (previous selection longer, new
one a matching prefix) the whole pass dies and nothing is replaced. -/
theorem claim_c3 (r : RouterCore) (res : Result) (err : Option GoError)
    (hne : res.selection ≠ []) :
    (r.selection = none →
      ∃ r', writerPass r res err = .ok r' ∧
        r'.rewriter = some ⟨res.selection⟩ ∧
        r'.rewriteInstalls = r.rewriteInstalls + 1 ∧
        r'.selection = some res) ∧
    (∀ p : Result, r.selection = some p →
      (equal p.selection res.selection = .ok true ↔
        p.selection = res.selection) ∧
      (p.selection = res.selection →
        ∃ r', writerPass r res err = .ok r' ∧
          r'.rewriter = r.rewriter ∧
          r'.rewriteInstalls = r.rewriteInstalls ∧
          r'.selection = some res) ∧
      (equal p.selection res.selection = .ok false →
        ∃ r', writerPass r res err = .ok r' ∧
          r'.rewriter = some ⟨res.selection⟩ ∧
          r'.rewriteInstalls = r.rewriteInstalls + 1 ∧
          r'.selection = some res) ∧
      (equal p.selection res.selection = .error () →
        writerPass r res err = .error ())) := by
  constructor
  · intro hn
    exact ⟨_, writerPass_of_merge (mergePhase_nonempty_none hne hn),
      by simp, by simp, by simp⟩
  · intro p hp
    refine ⟨equal_ok_true_iff, ?_, ?_, ?_⟩
    · intro hpeq
      have heq : equal p.selection res.selection = .ok true :=
        equal_ok_true_iff.mpr hpeq
      exact ⟨_, writerPass_of_merge (mergePhase_nonempty_some_eq hne hp heq),
        by simp, by simp, by simp⟩
    · intro heq
      exact ⟨_, writerPass_of_merge (mergePhase_nonempty_some_ne hne hp heq),
        by simp, by simp, by simp⟩
    · intro heq
      exact writerPass_of_merge_error
        (mergePhase_nonempty_some_panic hne hp heq)

/-- Witness for C3: a refresh equal to the stored selection keeps the
installed rewriter and installation count while replacing the stored
result. -/
theorem claim_c3_witness :
    ∃ r', writerPass
        { initialCore stratSample [] 1 with
            selection := some ⟨[], [uA]⟩, rewriter := some ⟨[uA]⟩ }
        ⟨[epA], [uA]⟩ none = .ok r' ∧
      r'.rewriter = some ⟨[uA]⟩ ∧
      r'.rewriteInstalls = 0 ∧
      r'.selection = some ⟨[epA], [uA]⟩ :=
  ((claim_c3
      { initialCore stratSample [] 1 with
          selection := some ⟨[], [uA]⟩, rewriter := some ⟨[uA]⟩ }
      ⟨[epA], [uA]⟩ none (by decide)).2 ⟨[], [uA]⟩ rfl).2.1 rfl

/-- **C6**, counterexample to the claim as stated: `Status().Endpoints`
is `r.selection.Candidates`, not the admitted `Selection`. With 2
discovered candidates and 1 admitted endpoint, `Status` reports 2
entries, not 1. -/
theorem claim_c6_counterexample :
    ¬ statusReportsAdmitted
        { initialCore stratSample [] 1 with
            selection := some ⟨[epA, epB], [uA]⟩ } := by
  intro h
  have h2 := h ⟨[epA, epB], stratSample.name, stratSample.description,
    formatAffinityOptions [], stratSample.comparisonMetricName, 1⟩ rfl
  simp [admittedCount] at h2

/-- **C6**, corrected. `Status()` is a pure projection of router state:
given the stored selection result it returns exactly the snapshot whose
`Endpoints` are the **discovered candidates** of the current selection
result (not the admitted `Selection`), plus strategy name, description,
comparison metric name, the rendered affinity options, and the refresh
interval. -/
theorem claim_c6 (r : RouterCore) (sel : Result)
    (hsel : r.selection = some sel) :
    statusGo r = .ok { endpoints := sel.candidates,
                       strategy := r.strategy.name,
                       strategyDescription := r.strategy.description,
                       affinityOptions :=
                         formatAffinityOptions r.affinityOptions,
                       comparisonMetric := r.strategy.comparisonMetricName,
                       intervalNs := r.intervalNs } := by
  unfold statusGo
  rw [hsel]

/-- Witness for C6 at a concrete router state. -/
theorem claim_c6_witness :
    statusGo { initialCore stratSample ["affinity: cookie"] 5 with
                 selection := some ⟨[epA], [uA]⟩ } =
      .ok { endpoints := [epA],
            strategy := stratSample.name,
            strategyDescription := stratSample.description,
            affinityOptions := formatAffinityOptions ["affinity: cookie"],
            comparisonMetric := stratSample.comparisonMetricName,
            intervalNs := 5 } :=
  claim_c6 _ ⟨[epA], [uA]⟩ rfl

/-- **C7**, confirmed. A refresh whose `Selection` is empty with a nil
error is adopted as the stored result — the explicit "no backends" state
— even over a previous non-empty selection. -/
theorem claim_c7 (r : RouterCore) (res : Result)
    (hres : res.selection = []) :
    ∃ r', writerPass r res none = .ok r' ∧ r'.selection = some res :=
  ⟨_, writerPass_of_merge (mergePhase_empty_noerr hres), by simp⟩

/-- Witness for C7: an established non-empty selection is replaced by the
empty no-error result. -/
theorem claim_c7_witness :
    ∃ r', writerPass
        { initialCore stratSample [] 1 with
            selection := some ⟨[epA], [uA]⟩, rewriter := some ⟨[uA]⟩ }
        ⟨[], []⟩ none = .ok r' ∧
      r'.selection = some ⟨[], []⟩ :=
  claim_c7 _ ⟨[], []⟩ rfl

/-- **C8**, confirmed. Every completed writer pass — whichever merge
branch ran — sets the admitted-backend gauge to the size of this
refresh's `Selection` and increments the refresh-event counter exactly
once (`router.go:133-134`). -/
theorem claim_c8 (r : RouterCore) (res : Result) (err : Option GoError)
    (r' : RouterCore) (h : writerPass r res err = .ok r') :
    r'.gaugeSelectedBackends = res.selection.length ∧
    r'.counterSelectionEvents = r.counterSelectionEvents + 1 :=
  writerPass_metrics h

/-- Witness for C8 at a concrete completed pass. -/
theorem claim_c8_witness :
    (⟨some ⟨[epA], [uA]⟩, some ⟨[uA]⟩, 1, 1, 1, stratSample, [], 1⟩ :
        RouterCore).gaugeSelectedBackends = 1 ∧
    (⟨some ⟨[epA], [uA]⟩, some ⟨[uA]⟩, 1, 1, 1, stratSample, [], 1⟩ :
        RouterCore).counterSelectionEvents = 1 :=
  claim_c8 (initialCore stratSample [] 1) ⟨[epA], [uA]⟩ none
    ⟨some ⟨[epA], [uA]⟩, some ⟨[uA]⟩, 1, 1, 1, stratSample, [], 1⟩ rfl

/-- **C9**, confirmed. `NewRouter` runs one complete synchronous writer
pass before returning (the event counter reads 1 and a selection result
is stored — the first pass cannot panic since `equal` hides behind
`r.selection == nil ||`), and along any sequence of completed later
refreshes the stored result stays non-nil, so `Status()` never
dereferences a nil selection. -/
theorem claim_c9 (strategy : StrategyMeta) (affs : List String) (iv : Nat)
    (res : Result) (err : Option GoError)
    (evs : List (Result × Option GoError)) :
    (∃ r0, newRouterCore strategy affs iv res err = .ok r0 ∧
      r0.counterSelectionEvents = 1 ∧ r0.selection.isSome = true) ∧
    (∀ r0 r', newRouterCore strategy affs iv res err = .ok r0 →
      runRefreshes r0 evs = .ok r' →
      r'.selection.isSome = true ∧ ∃ s, statusGo r' = .ok s) := by
  constructor
  · obtain ⟨r0, h0⟩ := @writerPass_none_ok (initialCore strategy affs iv)
      res err rfl
    refine ⟨r0, h0, ?_, writerPass_ok_isSome h0⟩
    have := (writerPass_metrics h0).2
    simpa [initialCore] using this
  · intro r0 r' h0 hrun
    have hsome := runRefreshes_isSome evs r0 r'
      hrun (writerPass_ok_isSome h0)
    exact ⟨hsome, statusGo_ok_of_isSome hsome⟩

/-- Witness for C9: a concrete construction followed by an errored empty
refresh. -/
theorem claim_c9_witness :
    (∃ r0, newRouterCore stratSample [] 1 ⟨[epA], [uA]⟩ none = .ok r0 ∧
      r0.counterSelectionEvents = 1 ∧ r0.selection.isSome = true) ∧
    (∀ r0 r', newRouterCore stratSample [] 1 ⟨[epA], [uA]⟩ none = .ok r0 →
      runRefreshes r0 [(⟨[], []⟩, some ⟨"tcp timeout"⟩)] = .ok r' →
      r'.selection.isSome = true ∧ ∃ s, statusGo r' = .ok s) :=
  claim_c9 stratSample [] 1 ⟨[epA], [uA]⟩ none
    [(⟨[], []⟩, some ⟨"tcp timeout"⟩)]

/-- **C10**, confirmed. Along any completed run, an installed rewriter
always captures a selection of length at least 1 (it is installed only in
the non-empty branch), and whenever the strategy's `NextIndex` returns an
in-range index the rewriter completes, copying host and scheme from the
endpoint at that index. -/
theorem claim_c10 (strategy : StrategyMeta) (affs : List String) (iv : Nat)
    (res : Result) (err : Option GoError)
    (evs : List (Result × Option GoError)) (r0 r' : RouterCore)
    (h0 : newRouterCore strategy affs iv res err = .ok r0)
    (hrun : runRefreshes r0 evs = .ok r')
    (rule : RewriteRule) (hrule : r'.rewriter = some rule) :
    1 ≤ rule.sel.length ∧
    ∀ (nextIndex : List URL → Nat) (u : URL)
      (hidx : nextIndex rule.sel < rule.sel.length),
      rule.apply nextIndex u =
        .ok { u with
                host := (rule.sel.get ⟨nextIndex rule.sel, hidx⟩).host,
                scheme := (rule.sel.get ⟨nextIndex rule.sel, hidx⟩).scheme } := by
  have hinit : RewriterInv (initialCore strategy affs iv) := by
    intro rl hrl
    simp [initialCore] at hrl
  have hinv0 : RewriterInv r0 := writerPass_rewriterInv hinit h0
  have hinv : RewriterInv r' := runRefreshes_rewriterInv evs r0 r' hrun hinv0
  have hne : rule.sel ≠ [] := hinv rule hrule
  constructor
  · have := List.length_pos.mpr hne
    omega
  · intro nextIndex u hidx
    exact rewriteRule_apply_ok rule nextIndex u hidx

/-- Witness for C10 at a concrete pipeline: the constructor's rewriter
captures `[uA]`, and applying it with the index-0 strategy rewrites host
and scheme to `uA`'s. -/
theorem claim_c10_witness :
    1 ≤ (⟨[uA]⟩ : RewriteRule).sel.length ∧
    RewriteRule.apply ⟨[uA]⟩ (fun _ => 0) uB =
      .ok ⟨uA.scheme, uA.host, uB.path⟩ :=
  ⟨(claim_c10 stratSample [] 1 ⟨[epA], [uA]⟩ none [] _ _ rfl rfl
      ⟨[uA]⟩ rfl).1,
   (claim_c10 stratSample [] 1 ⟨[epA], [uA]⟩ none [] _ _ rfl rfl
      ⟨[uA]⟩ rfl).2 (fun _ => 0) uB (by decide)⟩

end Mpp
